import Mathlib

/-!
Verification of the range-validation state machine of the beer-song GUI
(`src/lib.rs`).  The Rust code is an Elm-style app: a `Model` holding two
`TextBuffer<u32>` fields (`start`, `end`), and an `update` function
dispatching on a `Msg` (`UpdateStart`, `UpdateEnd`, `FullSong`,
`NextVerse`).  We embed the model and the update function shallowly:
`u32` values become `Nat` (all values the program stores are at most 99,
so no wraparound arises; `str::parse::<u32>` overflow is modelled by the
parse function rejecting values of 2^32 and above), and the in-place
mutations become a pure function `Model → Model`.
-/

set_option autoImplicit false

/-- Accumulate decimal digits: embeds the digit loop of Rust
`u32::from_str` (without the overflow bound, which is checked in
`parseU32`).  Returns `none` as soon as a non-digit character is seen. -/
def digitsToNat : List Char → Nat → Option Nat
  | [], acc => some acc
  | c :: cs, acc =>
      if c.isDigit then digitsToNat cs (acc * 10 + (c.toNat - 48)) else none

/-- Embeds Rust `str::parse::<u32>` (`u32::from_str`): an optional leading
plus sign, then one or more decimal digits, and the value must fit in a
`u32` (below `2 ^ 32`), otherwise the parse fails.  A leading minus sign,
an empty string, or any other character fails. -/
def parseU32 (s : String) : Option Nat :=
  let cs :=
    match s.data with
    | '+' :: rest => rest
    | other => other
  match cs with
  | [] => none
  | _ =>
      match digitsToNat cs 0 with
      | none => none
      | some n => if n < 2 ^ 32 then some n else none

/-- Embeds `struct TextBuffer<T>` (here at `T = u32`): the raw text value
and the parsed result. -/
structure TextBuffer where
  raw : String
  parsed : Nat
deriving Repr, DecidableEq

/-- Embeds `TextBuffer::default()`: `String::default()` is the empty
string and `u32::default()` is `0`. -/
def TextBuffer.default : TextBuffer :=
  { raw := "", parsed := 0 }

/-- Embeds `TextBuffer::update`: set the raw value, leaving `parsed`
alone. -/
def TextBuffer.update (b : TextBuffer) (raw : String) : TextBuffer :=
  { b with raw := raw }

/-- Embeds `TextBuffer::overwrite`: set both fields from a ready parsed
value, the raw field getting its decimal string form (`T::to_string`). -/
def TextBuffer.overwrite (_b : TextBuffer) (parsed : Nat) : TextBuffer :=
  { raw := Nat.repr parsed, parsed := parsed }

/-- Embeds `TextBuffer::parse`: reparse the raw value, storing the result
only when parsing succeeds. -/
def TextBuffer.parse (b : TextBuffer) : TextBuffer :=
  match parseU32 b.raw with
  | some parsed => { b with parsed := parsed }
  | none => b

/-- Embeds `TextBuffer::validate`: parse the current raw value; when it
parses and the supplied validation closure returns `Some valid`, store
`valid`; in every other case make no change. -/
def TextBuffer.validate (b : TextBuffer) (f : Nat → Option Nat) : TextBuffer :=
  match parseU32 b.raw with
  | some parsed =>
      match f parsed with
      | some valid => { b with parsed := valid }
      | none => b
  | none => b

/-- Embeds `TextBuffer::is_valid`: the raw value reparses to exactly the
stored parsed value. -/
def TextBuffer.is_valid (b : TextBuffer) : Bool :=
  match parseU32 b.raw with
  | some parsed => b.parsed == parsed
  | none => false

/-- Embeds `struct Model`.  Rust's field name `end` is a Lean keyword, so
it is rendered `end_`. -/
structure Model where
  start : TextBuffer
  end_ : TextBuffer
deriving Repr, DecidableEq

/-- Embeds `Model::default()` (derived): both buffers default. -/
def Model.default : Model :=
  { start := TextBuffer.default, end_ := TextBuffer.default }

/-- Embeds `fn init`: the app starts from `Model::default()`. -/
def init : Model := Model.default

/-- Embeds `enum Msg`. -/
inductive Msg where
  | UpdateStart : String → Msg
  | UpdateEnd : String → Msg
  | FullSong : Msg
  | NextVerse : Msg
deriving Repr, DecidableEq

/-- Embeds `fn update`: the four message handlers, with the mutations of
`model` turned into construction of the new model.  The local names
(`prev_end`, `new_start`, ...) follow the source. -/
def update (msg : Msg) (model : Model) : Model :=
  match msg with
  | Msg.UpdateStart raw =>
      let start1 := model.start.update raw
      let prev_end := model.end_.parsed
      let start2 := start1.validate fun start =>
        if start ≥ prev_end then some (min start 99) else none
      let new_start := start2.parsed
      let end2 := model.end_.validate fun e =>
        if e ≤ new_start then some (min e 99) else none
      { start := start2, end_ := end2 }
  | Msg.UpdateEnd raw =>
      let end1 := model.end_.update raw
      let prev_start := model.start.parsed
      let end2 := end1.validate fun e =>
        if e ≤ prev_start then some (min e 99) else none
      let new_end := end2.parsed
      let start2 := model.start.validate fun start =>
        if start ≥ new_end then some (min start 99) else none
      { start := start2, end_ := end2 }
  | Msg.FullSong =>
      { start := model.start.overwrite 99, end_ := model.end_.overwrite 0 }
  | Msg.NextVerse =>
      match model.end_.parsed with
      | 0 =>
          { start := model.start.overwrite 99, end_ := model.end_.overwrite 99 }
      | x + 1 =>
          { start := model.start, end_ := model.end_.overwrite (x + 1 - 1) }

/-- The spec's name for `update (Msg.UpdateStart raw)`. -/
def setStartText (raw : String) (m : Model) : Model :=
  update (Msg.UpdateStart raw) m

/-- The spec's name for `update (Msg.UpdateEnd raw)`. -/
def setEndText (raw : String) (m : Model) : Model :=
  update (Msg.UpdateEnd raw) m

/-- The spec's name for `update Msg.FullSong`. -/
def resetFull (m : Model) : Model :=
  update Msg.FullSong m

/-- The spec's name for `update Msg.NextVerse`. -/
def advance (m : Model) : Model :=
  update Msg.NextVerse m

/-- Subtraction that reports underflow, used to express that the `x - 1`
in the `NextVerse` arm cannot underflow (in Rust an underflow here would
abort the program). -/
def checkedSub (a b : Nat) : Option Nat :=
  if b ≤ a then some (a - b) else none

/-- The update function with the one arithmetic operation that could
abort in Rust (`x - 1` in the `NextVerse` arm) replaced by checked
subtraction, and `none` propagated where the Rust program would abort. -/
def updateChecked (msg : Msg) (model : Model) : Option Model :=
  match msg with
  | Msg.UpdateStart raw =>
      let start1 := model.start.update raw
      let prev_end := model.end_.parsed
      let start2 := start1.validate fun start =>
        if start ≥ prev_end then some (min start 99) else none
      let new_start := start2.parsed
      let end2 := model.end_.validate fun e =>
        if e ≤ new_start then some (min e 99) else none
      some { start := start2, end_ := end2 }
  | Msg.UpdateEnd raw =>
      let end1 := model.end_.update raw
      let prev_start := model.start.parsed
      let end2 := end1.validate fun e =>
        if e ≤ prev_start then some (min e 99) else none
      let new_end := end2.parsed
      let start2 := model.start.validate fun start =>
        if start ≥ new_end then some (min start 99) else none
      some { start := start2, end_ := end2 }
  | Msg.FullSong =>
      some { start := model.start.overwrite 99, end_ := model.end_.overwrite 0 }
  | Msg.NextVerse =>
      match model.end_.parsed with
      | 0 =>
          some { start := model.start.overwrite 99, end_ := model.end_.overwrite 99 }
      | x + 1 =>
          match checkedSub (x + 1) 1 with
          | some y => some { start := model.start, end_ := model.end_.overwrite y }
          | none => none

/-- The domain invariant of the spec: `0 <= end.parsed <= start.parsed <= 99`. -/
def RangeInv (m : Model) : Prop :=
  0 ≤ m.end_.parsed ∧ m.end_.parsed ≤ m.start.parsed ∧ m.start.parsed ≤ 99

instance (m : Model) : Decidable (RangeInv m) := by
  unfold RangeInv
  infer_instance

/-- Run a sequence of messages from the initial model. -/
def run (msgs : List Msg) : Model :=
  msgs.foldl (fun m msg => update msg m) init

/-! ### Basic lemmas about `TextBuffer.validate` -/

theorem TextBuffer.validate_raw (b : TextBuffer) (f : Nat → Option Nat) :
    (b.validate f).raw = b.raw := by
  unfold TextBuffer.validate
  split
  · split
    · rfl
    · rfl
  · rfl

theorem TextBuffer.validate_of_parse_none (b : TextBuffer) (f : Nat → Option Nat)
    (h : parseU32 b.raw = none) : b.validate f = b := by
  simp [TextBuffer.validate, h]

theorem TextBuffer.validate_of_none (b : TextBuffer) (f : Nat → Option Nat) (p : Nat)
    (hp : parseU32 b.raw = some p) (hf : f p = none) : b.validate f = b := by
  simp [TextBuffer.validate, hp, hf]

theorem TextBuffer.validate_of_some (b : TextBuffer) (f : Nat → Option Nat) (p v : Nat)
    (hp : parseU32 b.raw = some p) (hf : f p = some v) :
    b.validate f = { b with parsed := v } := by
  simp [TextBuffer.validate, hp, hf]

/-- Validating against a lower bound `lo` (the shape of the `start` checks
in `update`) keeps `parsed` within `[lo, 99]` whenever it started there
and `lo ≤ 99`. -/
theorem validate_ge_parsed (b : TextBuffer) (lo : Nat)
    (h1 : lo ≤ b.parsed) (h2 : b.parsed ≤ 99) (h3 : lo ≤ 99) :
    lo ≤ (b.validate fun s => if s ≥ lo then some (min s 99) else none).parsed ∧
      (b.validate fun s => if s ≥ lo then some (min s 99) else none).parsed ≤ 99 := by
  unfold TextBuffer.validate
  cases hp : parseU32 b.raw with
  | none => exact ⟨h1, h2⟩
  | some p =>
      by_cases hge : p ≥ lo
      · simp only [if_pos hge]
        constructor
        · show lo ≤ min p 99
          omega
        · show min p 99 ≤ 99
          omega
      · simp only [if_neg hge]
        exact ⟨h1, h2⟩

/-- Validating against an upper bound `hi` (the shape of the `end` checks
in `update`) keeps `parsed` at most `hi` whenever it started there. -/
theorem validate_le_parsed (b : TextBuffer) (hi : Nat) (h1 : b.parsed ≤ hi) :
    (b.validate fun e => if e ≤ hi then some (min e 99) else none).parsed ≤ hi := by
  unfold TextBuffer.validate
  cases hp : parseU32 b.raw with
  | none => exact h1
  | some p =>
      by_cases hle : p ≤ hi
      · simp only [if_pos hle]
        simp
        omega
      · simp only [if_neg hle]
        exact h1

/-! ### Unfolding the four operations -/

theorem setStartText_start_eq (raw : String) (m : Model) :
    (setStartText raw m).start =
      (m.start.update raw).validate fun s =>
        if s ≥ m.end_.parsed then some (min s 99) else none := rfl

theorem setStartText_end_eq (raw : String) (m : Model) :
    (setStartText raw m).end_ =
      m.end_.validate fun e =>
        if e ≤ (setStartText raw m).start.parsed then some (min e 99) else none := rfl

theorem setEndText_end_eq (raw : String) (m : Model) :
    (setEndText raw m).end_ =
      (m.end_.update raw).validate fun e =>
        if e ≤ m.start.parsed then some (min e 99) else none := rfl

theorem setEndText_start_eq (raw : String) (m : Model) :
    (setEndText raw m).start =
      m.start.validate fun s =>
        if s ≥ (setEndText raw m).end_.parsed then some (min s 99) else none := rfl

theorem resetFull_eq (m : Model) :
    resetFull m = { start := m.start.overwrite 99, end_ := m.end_.overwrite 0 } := rfl

theorem advance_eq_zero (m : Model) (h : m.end_.parsed = 0) :
    advance m = { start := m.start.overwrite 99, end_ := m.end_.overwrite 99 } := by
  unfold advance update
  rw [h]

theorem advance_eq_succ (m : Model) (x : Nat) (h : m.end_.parsed = x + 1) :
    advance m = { start := m.start, end_ := m.end_.overwrite (x + 1 - 1) } := by
  unfold advance update
  rw [h]

/-! ### Preservation of the range invariant -/

theorem update_preserves_inv (msg : Msg) (m : Model) (h : RangeInv m) :
    RangeInv (update msg m) := by
  obtain ⟨-, h1, h2⟩ := h
  cases msg with
  | UpdateStart raw =>
      have hS := validate_ge_parsed (m.start.update raw) m.end_.parsed h1 h2 (h1.trans h2)
      have hE := validate_le_parsed m.end_
        ((m.start.update raw).validate fun s =>
          if s ≥ m.end_.parsed then some (min s 99) else none).parsed hS.1
      exact ⟨Nat.zero_le _, hE, hS.2⟩
  | UpdateEnd raw =>
      have hE := validate_le_parsed (m.end_.update raw) m.start.parsed h1
      have hE99 : ((m.end_.update raw).validate fun e =>
          if e ≤ m.start.parsed then some (min e 99) else none).parsed ≤ 99 := hE.trans h2
      have hS := validate_ge_parsed m.start
        ((m.end_.update raw).validate fun e =>
          if e ≤ m.start.parsed then some (min e 99) else none).parsed hE h2 hE99
      exact ⟨Nat.zero_le _, hS.1, hS.2⟩
  | FullSong =>
      exact ⟨Nat.zero_le _, Nat.zero_le _, le_refl 99⟩
  | NextVerse =>
      cases he : m.end_.parsed with
      | zero =>
          rw [show update Msg.NextVerse m = advance m from rfl, advance_eq_zero m he]
          exact ⟨Nat.zero_le _, le_refl 99, le_refl 99⟩
      | succ x =>
          rw [show update Msg.NextVerse m = advance m from rfl, advance_eq_succ m x he]
          refine ⟨Nat.zero_le _, ?_, h2⟩
          show x + 1 - 1 ≤ m.start.parsed
          omega

theorem foldl_update_inv (msgs : List Msg) (m : Model) (h : RangeInv m) :
    RangeInv (msgs.foldl (fun m msg => update msg m) m) := by
  induction msgs generalizing m with
  | nil => exact h
  | cons msg rest ih => exact ih _ (update_preserves_inv msg m h)

/-! ### Claim theorems -/

/-- C1: for every sequence of the four operations (setStartText,
setEndText, resetFull, advance) applied to the initial model, the
resulting state satisfies `0 <= end.parsed <= start.parsed <= 99`. -/
theorem c1_invariant_after_any_sequence (msgs : List Msg) :
    RangeInv (run msgs) :=
  foldl_update_inv msgs init (by decide)

/-- C6: resetFull unconditionally sets start to raw "99" with parsed 99
and end to raw "0" with parsed 0, for every starting state. -/
theorem c6_resetFull_canonical (m : Model) :
    resetFull m = { start := { raw := "99", parsed := 99 },
                    end_ := { raw := "0", parsed := 0 } } ∧
    (resetFull m).start.parsed = 99 ∧ (resetFull m).end_.parsed = 0 ∧
    (resetFull m).start.raw = "99" ∧ (resetFull m).end_.raw = "0" := by
  refine ⟨?_, rfl, rfl, rfl, rfl⟩
  rfl

/-- C7: all four operations are total over every model state and input
string: the checked variant (which reports the one possible abort site,
the subtraction in the NextVerse arm) always succeeds and agrees with the
total update function. -/
theorem c7_operations_total (msg : Msg) (m : Model) :
    updateChecked msg m = some (update msg m) := by
  cases msg with
  | UpdateStart raw => rfl
  | UpdateEnd raw => rfl
  | FullSong => rfl
  | NextVerse =>
      cases he : m.end_.parsed with
      | zero => simp [updateChecked, update, he]
      | succ x => simp [updateChecked, update, he, checkedSub]

/-- C10: the initial model has raw equal to the empty string (not "0")
and parsed equal to 0 in both buffers; the range invariant already holds
while neither buffer's raw reparses to its parsed value. -/
theorem c10_initial_model :
    init.start.raw = "" ∧ init.start.parsed = 0 ∧
    init.end_.raw = "" ∧ init.end_.parsed = 0 ∧
    init.start.raw ≠ "0" ∧ init.end_.raw ≠ "0" ∧
    RangeInv init ∧
    init.start.is_valid = false ∧ init.end_.is_valid = false := by
  decide

/-- C3: setStartText stores raw verbatim into start.raw; when raw parses
to s, start.parsed becomes `min s 99` if s is at least the pre-update
end.parsed, and is left unchanged if s is below it. -/
theorem c3_setStartText_resolution (m : Model) (raw : String) :
    (setStartText raw m).start.raw = raw ∧
    ∀ s, parseU32 raw = some s →
      (m.end_.parsed ≤ s → (setStartText raw m).start.parsed = min s 99) ∧
      (s < m.end_.parsed → (setStartText raw m).start.parsed = m.start.parsed) := by
  constructor
  · rw [setStartText_start_eq, TextBuffer.validate_raw]
    rfl
  · intro s hs
    have hraw : parseU32 (m.start.update raw).raw = some s := hs
    constructor
    · intro hge
      rw [setStartText_start_eq,
        TextBuffer.validate_of_some _ _ s (min s 99) hraw (if_pos hge)]
    · intro hlt
      rw [setStartText_start_eq,
        TextBuffer.validate_of_none _ _ s hraw (if_neg (by omega))]
      rfl

/-- Witness for C3: the spec's clamping example, `setStartText "150"`
with `end.parsed = 0` commits `start.parsed = 99` with raw "150". -/
theorem c3_witness :
    parseU32 "150" = some 150 ∧
    (setStartText "150" ⟨⟨"", 30⟩, ⟨"0", 0⟩⟩).start.raw = "150" ∧
    (setStartText "150" ⟨⟨"", 30⟩, ⟨"0", 0⟩⟩).start.parsed = 99 := by
  refine ⟨by decide, (c3_setStartText_resolution ⟨⟨"", 30⟩, ⟨"0", 0⟩⟩ "150").1, ?_⟩
  have h := ((c3_setStartText_resolution ⟨⟨"", 30⟩, ⟨"0", 0⟩⟩ "150").2 150
    (by decide)).1 (by decide)
  exact h.trans (by decide)

/-- C4: in both setters the edited field is resolved first against the
other field's pre-update parsed value, then the other field is
re-validated against the freshly resolved value: its raw, if it parses to
a value within the fresh bound, is committed clamped to 99, and otherwise
its parsed value is unchanged. -/
theorem c4_second_pass (m : Model) (rawS rawE : String) :
    ((∀ e, parseU32 m.end_.raw = some e →
        (e ≤ (setStartText rawS m).start.parsed →
          (setStartText rawS m).end_.parsed = min e 99) ∧
        ((setStartText rawS m).start.parsed < e →
          (setStartText rawS m).end_.parsed = m.end_.parsed)) ∧
      (parseU32 m.end_.raw = none →
        (setStartText rawS m).end_.parsed = m.end_.parsed)) ∧
    ((∀ s, parseU32 m.start.raw = some s →
        ((setEndText rawE m).end_.parsed ≤ s →
          (setEndText rawE m).start.parsed = min s 99) ∧
        (s < (setEndText rawE m).end_.parsed →
          (setEndText rawE m).start.parsed = m.start.parsed)) ∧
      (parseU32 m.start.raw = none →
        (setEndText rawE m).start.parsed = m.start.parsed)) := by
  refine ⟨⟨?_, ?_⟩, ?_, ?_⟩
  · intro e he
    constructor
    · intro hle
      rw [setStartText_end_eq,
        TextBuffer.validate_of_some _ _ e (min e 99) he (if_pos hle)]
    · intro hgt
      rw [setStartText_end_eq,
        TextBuffer.validate_of_none _ _ e he (if_neg (by omega))]
  · intro hnone
    rw [setStartText_end_eq, TextBuffer.validate_of_parse_none _ _ hnone]
  · intro s hs
    constructor
    · intro hge
      rw [setEndText_start_eq,
        TextBuffer.validate_of_some _ _ s (min s 99) hs (if_pos hge)]
    · intro hlt
      rw [setEndText_start_eq,
        TextBuffer.validate_of_none _ _ s hs (if_neg (by omega))]
  · intro hnone
    rw [setEndText_start_eq, TextBuffer.validate_of_parse_none _ _ hnone]

/-- Witness for C4: with state start (99,"99") end (10,"10"),
setStartText "50" re-commits end at 10 (within the fresh start 50), and
setEndText "40" re-commits start at 99. -/
theorem c4_witness :
    (setStartText "50" ⟨⟨"99", 99⟩, ⟨"10", 10⟩⟩).end_.parsed = min 10 99 ∧
    (setEndText "40" ⟨⟨"99", 99⟩, ⟨"10", 10⟩⟩).start.parsed = min 99 99 := by
  constructor
  · exact ((c4_second_pass ⟨⟨"99", 99⟩, ⟨"10", 10⟩⟩ "50" "40").1.1 10
      (by decide)).1 (by decide)
  · exact ((c4_second_pass ⟨⟨"99", 99⟩, ⟨"10", 10⟩⟩ "50" "40").2.1 99
      (by decide)).1 (by decide)

/-- C5: advance with end.parsed = 0 overwrites both fields to 99; with
end.parsed = x + 1 it overwrites end to x while start is untouched; every
overwrite sets raw to the decimal string of the value. -/
theorem c5_advance_behaviour (m : Model) :
    (m.end_.parsed = 0 →
      advance m = { start := { raw := "99", parsed := 99 },
                    end_ := { raw := "99", parsed := 99 } }) ∧
    ∀ x, m.end_.parsed = x + 1 →
      advance m = { start := m.start,
                    end_ := { raw := Nat.repr x, parsed := x } } := by
  constructor
  · intro h
    rw [advance_eq_zero m h]
    rfl
  · intro x h
    rw [advance_eq_succ m x h]
    simp [TextBuffer.overwrite]

/-- Witness for C5: advance takes (5,0) to (99,99) and (10,3) to (10,2). -/
theorem c5_witness :
    advance ⟨⟨"5", 5⟩, ⟨"0", 0⟩⟩ =
      ({ start := ⟨"99", 99⟩, end_ := ⟨"99", 99⟩ } : Model) ∧
    advance ⟨⟨"10", 10⟩, ⟨"3", 3⟩⟩ =
      ({ start := ⟨"10", 10⟩, end_ := ⟨"2", 2⟩ } : Model) := by
  constructor
  · exact (c5_advance_behaviour ⟨⟨"5", 5⟩, ⟨"0", 0⟩⟩).1 (by decide)
  · have h := (c5_advance_behaviour ⟨⟨"10", 10⟩, ⟨"3", 3⟩⟩).2 2 (by decide)
    exact h.trans (by decide)

/-- Helper for the idempotence claim: when the raw string parses to a
value at least the current end.parsed and at most 99, setStartText
commits exactly that value. -/
theorem setStartText_commits (raw : String) (m : Model) (v : Nat)
    (hp : parseU32 raw = some v) (h1 : m.end_.parsed ≤ v) (h2 : v ≤ 99) :
    (setStartText raw m).start.parsed = v := by
  have hraw : parseU32 (m.start.update raw).raw = some v := hp
  rw [setStartText_start_eq,
    TextBuffer.validate_of_some _ _ v (min v 99) hraw (if_pos h1)]
  show min v 99 = v
  omega

/-- C8: in a state whose start.raw parses to the committed start.parsed
and satisfies the constraint, calling setStartText twice with that same
raw string leaves start.parsed unchanged after each call. -/
theorem c8_idempotent (m : Model) (v : Nat)
    (hparse : parseU32 m.start.raw = some v)
    (hcommit : m.start.parsed = v)
    (hgap : m.end_.parsed ≤ v) (hle : v ≤ 99) :
    (setStartText m.start.raw m).start.parsed = m.start.parsed ∧
    (setStartText m.start.raw (setStartText m.start.raw m)).start.parsed =
      m.start.parsed := by
  have h1 : (setStartText m.start.raw m).start.parsed = v :=
    setStartText_commits m.start.raw m v hparse hgap hle
  have hprei : m.end_.parsed ≤ (setStartText m.start.raw m).start.parsed := by
    rw [h1]
    exact hgap
  have hE : (setStartText m.start.raw m).end_.parsed ≤ v := by
    have hb := validate_le_parsed m.end_
      (setStartText m.start.raw m).start.parsed hprei
    rw [setStartText_end_eq]
    exact hb.trans (le_of_eq h1)
  have h2 : (setStartText m.start.raw (setStartText m.start.raw m)).start.parsed
      = v :=
    setStartText_commits m.start.raw (setStartText m.start.raw m) v hparse hE hle
  rw [hcommit]
  exact ⟨h1, h2⟩

/-- Witness for C8 at the committed state (50,10) with raw "50". -/
theorem c8_witness :
    parseU32 "50" = some 50 ∧
    (setStartText "50" ⟨⟨"50", 50⟩, ⟨"10", 10⟩⟩).start.parsed = 50 ∧
    (setStartText "50" (setStartText "50" ⟨⟨"50", 50⟩, ⟨"10", 10⟩⟩)).start.parsed
      = 50 := by
  have h := c8_idempotent ⟨⟨"50", 50⟩, ⟨"10", 10⟩⟩ 50 (by decide) rfl
    (by decide) (by decide)
  exact ⟨by decide, h.1, h.2⟩

/-- C2 as stated is false on the code: with state (30,10), setStartText
"abc" (which does not parse) leaves start.parsed at 30; it is not forced
to end.parsed = 10. -/
theorem c2_counterexample :
    parseU32 "abc" = none ∧
    (setStartText "abc" ⟨⟨"30", 30⟩, ⟨"10", 10⟩⟩).start.raw = "abc" ∧
    (setStartText "abc" ⟨⟨"30", 30⟩, ⟨"10", 10⟩⟩).start.parsed = 30 ∧
    (setStartText "abc" ⟨⟨"30", 30⟩, ⟨"10", 10⟩⟩).start.parsed ≠
      (⟨⟨"30", 30⟩, ⟨"10", 10⟩⟩ : Model).end_.parsed := by
  decide

/-- C2 amended: for every state and raw string that fails to parse, the
edited field stores raw verbatim and its parsed value is left unchanged
(not forced to the other field's parsed value). -/
theorem c2_amended_parse_failure (m : Model) (raw : String)
    (h : parseU32 raw = none) :
    (setStartText raw m).start.raw = raw ∧
    (setStartText raw m).start.parsed = m.start.parsed ∧
    (setEndText raw m).end_.raw = raw ∧
    (setEndText raw m).end_.parsed = m.end_.parsed := by
  have hs : parseU32 (m.start.update raw).raw = none := h
  have he : parseU32 (m.end_.update raw).raw = none := h
  refine ⟨?_, ?_, ?_, ?_⟩
  · rw [setStartText_start_eq, TextBuffer.validate_raw]
    rfl
  · rw [setStartText_start_eq, TextBuffer.validate_of_parse_none _ _ hs]
    rfl
  · rw [setEndText_end_eq, TextBuffer.validate_raw]
    rfl
  · rw [setEndText_end_eq, TextBuffer.validate_of_parse_none _ _ he]
    rfl

/-- Witness for the amended C2 at the spec's example input. -/
theorem c2_amended_witness :
    parseU32 "abc" = none ∧
    (setStartText "abc" ⟨⟨"zz", 30⟩, ⟨"10", 10⟩⟩).start.raw = "abc" ∧
    (setStartText "abc" ⟨⟨"zz", 30⟩, ⟨"10", 10⟩⟩).start.parsed = 30 := by
  have h := c2_amended_parse_failure ⟨⟨"zz", 30⟩, ⟨"10", 10⟩⟩ "abc" (by decide)
  exact ⟨by decide, h.1, h.2.1⟩

/-- C9 as stated is false on the code: in the (reachable) state with
start = ("50", 99) and end = ("49", 49), setEndText "abc" (which does not
parse) still changes start.parsed from 99 to 50 through the second-pass
re-validation of start against the unchanged end. -/
theorem c9_counterexample :
    parseU32 "abc" = none ∧
    (setEndText "abc" ⟨⟨"50", 99⟩, ⟨"49", 49⟩⟩).start.parsed = 50 ∧
    (setEndText "abc" ⟨⟨"50", 99⟩, ⟨"49", 49⟩⟩).start.parsed ≠
      (⟨⟨"50", 99⟩, ⟨"49", 49⟩⟩ : Model).start.parsed := by
  decide

/-- C9 amended: when the raw string fails to parse, the edited field's
parsed value and the other field's raw are unchanged, but the other field
is still re-validated against the edited field's (unchanged) parsed
value, so its parsed value may change. -/
theorem c9_amended_parse_failure (m : Model) (raw : String)
    (h : parseU32 raw = none) :
    (setStartText raw m).start.parsed = m.start.parsed ∧
    (setStartText raw m).end_.raw = m.end_.raw ∧
    (setStartText raw m).end_ =
      (m.end_.validate fun e =>
        if e ≤ m.start.parsed then some (min e 99) else none) ∧
    (setEndText raw m).end_.parsed = m.end_.parsed ∧
    (setEndText raw m).start.raw = m.start.raw ∧
    (setEndText raw m).start =
      (m.start.validate fun s =>
        if s ≥ m.end_.parsed then some (min s 99) else none) := by
  have hs : parseU32 (m.start.update raw).raw = none := h
  have he : parseU32 (m.end_.update raw).raw = none := h
  have h1 : (setStartText raw m).start.parsed = m.start.parsed := by
    rw [setStartText_start_eq, TextBuffer.validate_of_parse_none _ _ hs]
    rfl
  have h4 : (setEndText raw m).end_.parsed = m.end_.parsed := by
    rw [setEndText_end_eq, TextBuffer.validate_of_parse_none _ _ he]
    rfl
  refine ⟨h1, ?_, ?_, h4, ?_, ?_⟩
  · rw [setStartText_end_eq, TextBuffer.validate_raw]
  · rw [setStartText_end_eq]
    simp only [h1]
  · rw [setEndText_start_eq, TextBuffer.validate_raw]
  · rw [setEndText_start_eq]
    simp only [h4]

/-- Witness for the amended C9 at the counterexample state. -/
theorem c9_amended_witness :
    parseU32 "abc" = none ∧
    (setEndText "abc" ⟨⟨"50", 99⟩, ⟨"49", 49⟩⟩).end_.parsed = 49 ∧
    (setEndText "abc" ⟨⟨"50", 99⟩, ⟨"49", 49⟩⟩).start.raw = "50" := by
  have h := c9_amended_parse_failure ⟨⟨"50", 99⟩, ⟨"49", 49⟩⟩ "abc" (by decide)
  exact ⟨by decide, h.2.2.2.1, h.2.2.2.2.1⟩
